import Mathlib

/-!
Verification of the ML core of the vendor-platform recommendation engine
(`src/recommendation-engine/ml_service.py`): the embedding service, the
co-purchase pattern miner and the life-event detector.

Modelling conventions.
* Python floats are modelled as exact rationals (`ℚ`); the decimal literals
  of the source (0.1, 0.15, 0.3, ...) are exact in both representations and
  every arithmetic operation the code performs on them (addition,
  multiplication by small integers, `min`) is exact in IEEE double for the
  magnitudes involved, so the order relations the code branches on agree.
* Python strings are modelled as `String`, lowered to `List Char` for the
  character-level operations (`str.lower`, substring containment) so that
  everything kernel-evaluates.
* `numpy`'s global random generator is modelled as an explicit state
  (`RandomState`) threaded through the calls; `np.random.seed` replaces the
  state, `np.random.randn(dim)` draws `dim` values determined by the state.
  The concrete values drawn are an abstraction of the Mersenne-Twister
  stream: the code relies only on the stream being a function of the seed
  and on its length, and every theorem below uses only those two facts.
* `sklearn.metrics.pairwise.cosine_similarity` computes one real-valued
  score per candidate; the scoring function is a parameter `sim` of the
  model, and the ranking facts proved below hold for every scoring
  function. `np.argsort` is called with its default `kind='quicksort'`, an
  introsort that numpy documents as NOT stable, so the program fixes no tie
  order in general; a deterministic model must still pick one concrete tie
  order, and this one uses an ascending insertion sort. That choice
  coincides with numpy's actual behavior on pools below its small-array
  insertion-sort threshold (in particular on the two-element pool of the
  tie-order counterexample); every general ranking theorem below is
  tie-insensitive (sortedness by score, exclusion, membership), so it does
  not depend on the modelled tie order.
* `mlxtend` is not part of the repository; `apriori`, the rule generation
  of `association_rules` and its `conviction` column are modelled from
  their documented semantics, which the spec restates in its §4.3: frequent
  itemsets are the nonempty itemsets with support at least `min_support`,
  rules are the nonempty proper-subset splits of a frequent itemset kept
  when `lift` reaches the `min_threshold`, and the conviction column is
  `(1 - support(consequent)) / (1 - confidence)` for confidence below one
  and positive infinity at confidence exactly one.
* Wall-clock reads (`datetime.utcnow()` on `DetectedEvent.detected_at`) and
  the open `metadata` dictionaries are outside the claims and are omitted
  from the corresponding structures.
-/

/-! ## Generic list machinery: stable insertion sort -/

/-- Insert `x` into `l`, before the first element `y` with `le x y`.
For a total `le` this is the insertion step of a stable ascending
insertion sort: among elements the comparison ties, earlier input
elements stay earlier. -/
def insertSorted (le : α → α → Bool) (x : α) : List α → List α
  | [] => [x]
  | y :: ys => if le x y then x :: y :: ys else y :: insertSorted le x ys

/-- Insertion sort by the Boolean comparison `le` (stable for a total
`le`). Models Python's `list.sort`, which is documented stable (with a
reversed comparison it is the descending sort that keeps ties in original
order), and supplies the one concrete deterministic tie order the
`np.argsort` model needs (see the header note: numpy's default kind is an
unstable introsort, so no tie order is guaranteed by the program in
general). -/
def insertionSort (le : α → α → Bool) : List α → List α
  | [] => []
  | x :: xs => insertSorted le x (insertionSort le xs)

/-! ## Character-level text primitives (Python `str.lower`, `in`, `" ".join`) -/

/-- ASCII lower-casing of one character, as Python's `str.lower` acts on the
ASCII texts of this module. -/
def charLower (c : Char) : Char :=
  if 65 ≤ c.toNat ∧ c.toNat ≤ 90 then Char.ofNat (c.toNat + 32) else c

/-- Lower-case a character list. -/
def lowerChars (l : List Char) : List Char := l.map charLower

/-- Does `l` start with `p`? -/
def startsWithChars : List Char → List Char → Bool
  | [], _ => true
  | _ :: _, [] => false
  | p :: ps, c :: cs => p == c && startsWithChars ps cs

/-- Contiguous-substring containment, Python's `pat in text` on strings. -/
def containsSub (pat : List Char) : List Char → Bool
  | [] => startsWithChars pat []
  | c :: cs => startsWithChars pat (c :: cs) || containsSub pat cs

/-- Python's `" ".join(parts)`. -/
def joinSpaced : List (List Char) → List Char
  | [] => []
  | [x] => x
  | x :: y :: rest => x ++ ' ' :: joinSpaced (y :: rest)

/-! ## Python float edge values

The miner's line
`conviction=float(row['conviction']) if pd.notna(row['conviction']) else 0.0`
distinguishes NaN (which `pd.notna` rejects) from every other float,
infinities included, so the model of that column keeps the three cases
apart. -/

/-- Value of a Python float cell as the miner sees it: an exact finite
rational, positive infinity, or NaN. -/
inductive PyFloat where
  | finite (q : ℚ)
  | inf
  | nan
deriving DecidableEq

/-- Pandas `pd.notna` on a float cell: false exactly on NaN. Infinities are
not NA values for pandas. -/
def pd_notna : PyFloat → Bool
  | .nan => false
  | _ => true

/-! ## EmbeddingService (`ml_service.py` lines 101–185) -/

namespace EmbeddingService

/-- Global state of `np.random`, reduced to the seed material that
determines the stream. -/
structure RandomState where
  seed : ℕ
deriving DecidableEq

/-- Model of `np.random.seed(s)`: the state is replaced by one determined
by `s` alone. -/
def np_seed (s : ℕ) (_st : RandomState) : RandomState := ⟨s⟩

/-- Model of `np.random.randn(dim)`: draws `dim` values determined by the
current state and advances the state. The concrete values stand in for the
Mersenne-Twister gaussian stream; the code depends only on the draw being
a function of the state and on its length. -/
def np_randn (dim : ℕ) (st : RandomState) : List ℚ × RandomState :=
  ((List.range dim).map (fun i => ((st.seed + i : ℕ) : ℚ)), ⟨st.seed + dim⟩)

/-- Modelled from the spec: the external pretrained sentence-transformer
encoder (strategy (a) of §4.1, not part of the repository). The spec's data
model fixes that its output dimension is a constant of the model
("embedding dimension is constant across all instances ...
model-determined, e.g. 384"), recorded here by the `encode_dim` field. -/
structure SentenceTransformerModel where
  dim : ℕ
  encode : String → List ℚ
  encode_dim : ∀ t, (encode t).length = dim

/-- Fallback embedding (`_fallback_embedding`, lines 137–140):
`np.random.seed(hash(text) % (2**32)); return np.random.randn(384)`.
`pyhash` stands for Python's per-process string hash, fixed for the
process lifetime; `%` on a Python int is `Int.emod` (result non-negative
for a positive modulus). -/
def fallback_embedding (pyhash : String → ℤ) (text : String) (st : RandomState) :
    List ℚ × RandomState :=
  np_randn 384 (np_seed ((pyhash text).emod (2 ^ 32)).toNat st)

/-- `generate_embedding` (lines 130–135): the transformer model when one
loaded, otherwise the pseudo-random fallback. -/
def generate_embedding (model : Option SentenceTransformerModel) (pyhash : String → ℤ)
    (text : String) (st : RandomState) : List ℚ × RandomState :=
  match model with
  | some m => (m.encode text, st)
  | none => fallback_embedding pyhash text st

/-- Output dimension of the strategy in effect. -/
def embeddingDim : Option SentenceTransformerModel → ℕ
  | some m => m.dim
  | none => 384

/-- One service's embedding record (dataclass `ServiceEmbedding`); the open
`metadata` map carries no claim and is omitted. -/
structure ServiceEmbedding where
  service_id : String
  category_id : String
  vendor_id : String
  embedding : List ℚ
deriving DecidableEq

/-- Candidates surviving the exclusion filter, in pool order
(`[e for e in all_embeddings if e.service_id not in exclude_ids]`). -/
def filteredCandidates (all_embeddings : List ServiceEmbedding)
    (exclude_ids : List String) : List ServiceEmbedding :=
  all_embeddings.filter (fun e => decide (e.service_id ∉ exclude_ids))

/-- The ranking core of `find_similar_services`: score every candidate with
`sim` (standing for the cosine-similarity row), argsort the scores
ascending, reverse, keep the first `top_k`. The source's `np.argsort` uses
the default `kind='quicksort'` introsort, which numpy documents as not
stable: on ties its order is unspecified for large pools, and the model's
insertion sort is one concrete deterministic choice that agrees with numpy
below its small-array insertion-sort threshold. Every general theorem
about this ranking is tie-insensitive. Each entry carries its index in the
filtered pool so that tie order is visible at concrete small inputs. -/
def rankedCandidates (sim : List ℚ → List ℚ → ℚ) (query_embedding : List ℚ)
    (candidates : List ServiceEmbedding) (top_k : ℕ) : List (ℕ × ServiceEmbedding × ℚ) :=
  let scored := candidates.enum.map (fun p => (p.1, p.2, sim query_embedding p.2.embedding))
  ((insertionSort (fun a b => decide (a.2.2 ≤ b.2.2)) scored).reverse).take top_k

/-- `find_similar_services` (lines 164–185): filter out excluded ids,
return `[]` on an empty filtered pool, otherwise the top `top_k`
candidates by descending score. -/
def find_similar_services (sim : List ℚ → List ℚ → ℚ) (query_embedding : List ℚ)
    (all_embeddings : List ServiceEmbedding) (top_k : ℕ) (exclude_ids : List String) :
    List (ServiceEmbedding × ℚ) :=
  let candidates := filteredCandidates all_embeddings exclude_ids
  if candidates.isEmpty then []
  else (rankedCandidates sim query_embedding candidates top_k).map (fun p => (p.2.1, p.2.2))

end EmbeddingService

/-! ## CoPurchasePatternMiner (`ml_service.py` lines 192–276) -/

namespace CoPurchasePatternMiner

/-- A transaction: the distinct category slugs of one booking group, as the
source query's `ARRAY_AGG(DISTINCT sc.slug)` returns them. -/
abbrev Transaction := List String

/-- Number of transactions containing every item of `s`. -/
def supportCount (ts : List Transaction) (s : List String) : ℕ :=
  (ts.filter (fun t => s.all (fun x => decide (x ∈ t)))).length

/-- Support of the itemset `s`: the fraction of transactions containing it. -/
def support (ts : List Transaction) (s : List String) : ℚ :=
  (supportCount ts s : ℚ) / (ts.length : ℚ)

/-- Universe of observed category labels, one occurrence each (the columns
of mlxtend's `TransactionEncoder`). -/
def itemUniverse (ts : List Transaction) : List String :=
  (ts.flatMap id).dedup

/-- Modelled from the spec: `mlxtend.frequent_patterns.apriori` — every
nonempty itemset over the observed items whose support reaches
`min_support` (spec §4.3 step 4; itemsets below threshold are discarded). -/
def apriori (ts : List Transaction) (min_support : ℚ) : List (List String) :=
  (itemUniverse ts).sublists.filter
    (fun s => decide (s ≠ [] ∧ min_support ≤ support ts s))

/-- Modelled from the spec: the conviction column of
`mlxtend.frequent_patterns.association_rules` —
`(1 - support(consequent)) / (1 - confidence)` when confidence is below
one, and positive infinity when confidence equals one (the documented
mlxtend behavior; the spec's §4.3 step 6 calls this case
"mathematically undefined/infinite"). -/
def conviction_helper (sC confidence : ℚ) : PyFloat :=
  if confidence < 1 then .finite ((1 - sC) / (1 - confidence)) else .inf

/-- One row of mlxtend's rule frame, before the miner repackages it. -/
structure RawRule where
  antecedents : List String
  consequents : List String
  support : ℚ
  confidence : ℚ
  lift : ℚ
  conviction : PyFloat
deriving DecidableEq

/-- Modelled from the spec: rule generation of
`mlxtend.frequent_patterns.association_rules` from one frequent itemset
`I` — every split of `I` into a nonempty proper antecedent `A` and the
complementary consequent, scored by support/confidence/lift/conviction and
kept when `lift` reaches `min_lift` (the miner calls the library with
`metric="lift", min_threshold=self.min_lift`; spec §4.3 step 5). -/
def rulesFromItemset (ts : List Transaction) (min_lift : ℚ) (I : List String) :
    List RawRule :=
  (I.sublists.filter (fun A => decide (A ≠ [] ∧ A ≠ I))).filterMap (fun A =>
    let C := I.filter (fun x => decide (x ∉ A))
    let sA := support ts A
    let sC := support ts C
    let sAC := support ts I
    let confidence := sAC / sA
    let lift := confidence / sC
    if min_lift ≤ lift then
      some ⟨A, C, sAC, confidence, lift, conviction_helper sC confidence⟩
    else none)

/-- Modelled from the spec: `association_rules` over every frequent
itemset. -/
def association_rules (ts : List Transaction) (frequent_itemsets : List (List String))
    (min_lift : ℚ) : List RawRule :=
  frequent_itemsets.flatMap (rulesFromItemset ts min_lift)

/-- A discovered co-purchase pattern (dataclass `CoPurchaseRule`). The
`conviction` field keeps the `PyFloat` cases apart because the source only
guards the NaN one. -/
structure CoPurchaseRule where
  antecedent_categories : List String
  consequent_categories : List String
  support : ℚ
  confidence : ℚ
  lift : ℚ
  conviction : PyFloat
  event_context : Option String
deriving DecidableEq

/-- `mine_patterns` (lines 207–248). `hasMlxtend` is the import-time flag
`HAS_MLXTEND`; `transactions` is what `_fetch_transactions` returned. The
pipeline: empty on a missing library, empty below 10 transactions, empty
on no frequent itemsets; otherwise rules filtered by lift (inside the
library call) and by confidence, repackaged with the
`float(...) if pd.notna(...) else 0.0` conviction guard and the
`event_type` context. -/
def mine_patterns (hasMlxtend : Bool) (min_support min_confidence min_lift : ℚ)
    (event_type : Option String) (transactions : List Transaction) :
    List CoPurchaseRule :=
  if !hasMlxtend then []
  else if transactions.length < 10 then []
  else
    let frequent_itemsets := apriori transactions min_support
    if frequent_itemsets.isEmpty then []
    else
      let rules := (association_rules transactions frequent_itemsets min_lift).filter
        (fun r => decide (min_confidence ≤ r.confidence))
      rules.map (fun r =>
        ⟨r.antecedents, r.consequents, r.support, r.confidence, r.lift,
          if pd_notna r.conviction then r.conviction else .finite 0,
          event_type⟩)

end CoPurchasePatternMiner

/-! ## EventDetector (`ml_service.py` lines 283–357) -/

namespace EventDetector

/-- One archetype's configuration (one value of `EVENT_PATTERNS`). -/
structure EventPattern where
  keywords : List String
  category_signals : List String
  min_category_matches : ℕ
  confidence_boost_per_match : ℚ

/-- The `wedding` archetype. -/
def weddingPattern : EventPattern :=
  ⟨["wedding", "bride", "groom", "reception", "engagement",
    "bridal", "ceremony", "vows", "honeymoon", "registry"],
   ["venue", "catering", "photography", "decoration", "florist", "cake", "makeup"],
   2, 0.15⟩

/-- The `relocation` archetype. -/
def relocationPattern : EventPattern :=
  ⟨["moving", "relocation", "new home", "apartment", "movers", "packing"],
   ["moving", "cleaning", "painting", "electrical", "plumbing"],
   2, 0.12⟩

/-- The `childbirth` archetype. -/
def childbirthPattern : EventPattern :=
  ⟨["baby", "pregnancy", "newborn", "maternity", "nursery", "baby shower"],
   ["doula", "photographer", "catering", "decoration"],
   1, 0.20⟩

/-- The `business_launch` archetype. -/
def businessLaunchPattern : EventPattern :=
  ⟨["business", "company", "startup", "office", "registration", "branding"],
   ["business_registration", "legal", "branding", "webdev"],
   2, 0.15⟩

/-- The archetype catalog, in the source dictionary's insertion order
(Python dictionaries iterate in insertion order). -/
def EVENT_PATTERNS : List (String × EventPattern) :=
  [("wedding", weddingPattern), ("relocation", relocationPattern),
   ("childbirth", childbirthPattern), ("business_launch", businessLaunchPattern)]

/-- A detected life event (dataclass `DetectedEvent`); the wall-clock
`detected_at` and the open `metadata` map carry no claim and are
omitted. -/
structure DetectedEvent where
  event_type : String
  confidence : ℚ
  trigger_signals : List String
deriving DecidableEq

/-- The lower-cased concatenation of the recent searches
(`" ".join(recent_searches).lower()`). -/
def searchText (recent_searches : List String) : List Char :=
  lowerChars (joinSpaced (recent_searches.map String.data))

/-- `sum(1 for kw in patterns['keywords'] if kw.lower() in search_text)`. -/
def keywordMatchCount (recent_searches : List String) (p : EventPattern) : ℕ :=
  (p.keywords.filter
    (fun kw => containsSub (lowerChars kw.data) (searchText recent_searches))).length

/-- `sum(1 for cat in viewed_categories if cat in patterns['category_signals'])`. -/
def categoryViewCount (viewed_categories : List String) (p : EventPattern) : ℕ :=
  (viewed_categories.filter (fun cat => decide (cat ∈ p.category_signals))).length

/-- `sum(1 for cat in booked_categories if cat in patterns['category_signals'])`. -/
def categoryBookingCount (booked_categories : List String) (p : EventPattern) : ℕ :=
  (booked_categories.filter (fun cat => decide (cat ∈ p.category_signals))).length

/-- Score one archetype (the loop body of `detect_events`, lines 329–346):
the summed confidence contributions and, in evaluation order, the trigger
signals of the contributions that fired. -/
def scoreArchetype (recent_searches viewed_categories booked_categories : List String)
    (p : EventPattern) : ℚ × List String :=
  let keyword_matches := keywordMatchCount recent_searches p
  let k : ℚ × List String :=
    if 0 < keyword_matches then
      (min ((keyword_matches : ℚ) * 0.1) 0.3,
       ["keyword_matches:" ++ toString keyword_matches])
    else (0, [])
  let category_views := categoryViewCount viewed_categories p
  let v : ℚ × List String :=
    if p.min_category_matches ≤ category_views then
      ((category_views : ℚ) * p.confidence_boost_per_match,
       ["category_views:" ++ toString category_views])
    else (0, [])
  let category_bookings := categoryBookingCount booked_categories p
  let b : ℚ × List String :=
    if 0 < category_bookings then
      ((category_bookings : ℚ) * 0.25,
       ["category_bookings:" ++ toString category_bookings])
    else (0, [])
  (k.1 + v.1 + b.1, k.2 ++ v.2 ++ b.2)

/-- `detect_events` (lines 318–357): per archetype, emit an event exactly
when the summed confidence reaches 0.3, with the confidence clamped by
`min(confidence, 1.0)`; then a stable descending sort by confidence
(`detected.sort(key=..., reverse=True)`, Python's sort is stable). -/
def detect_events (recent_searches viewed_categories booked_categories : List String) :
    List DetectedEvent :=
  let detected := EVENT_PATTERNS.filterMap (fun np =>
    let cs := scoreArchetype recent_searches viewed_categories booked_categories np.2
    if (0.3 : ℚ) ≤ cs.1 then some ⟨np.1, min cs.1 1, cs.2⟩ else none)
  insertionSort (fun a b => decide (b.confidence ≤ a.confidence)) detected

end EventDetector

/-! ## Generic lemmas about the stable insertion sort -/

theorem mem_insertSorted {le : α → α → Bool} {x a : α} {l : List α} :
    a ∈ insertSorted le x l ↔ a = x ∨ a ∈ l := by
  induction l with
  | nil => simp [insertSorted]
  | cons y ys ih =>
    rw [insertSorted]
    by_cases h : le x y
    · simp [h]
    · simp only [h, Bool.false_eq_true, if_false, List.mem_cons, ih]
      tauto

theorem insertSorted_perm (le : α → α → Bool) (x : α) (l : List α) :
    (insertSorted le x l).Perm (x :: l) := by
  induction l with
  | nil => exact List.Perm.refl _
  | cons y ys ih =>
    rw [insertSorted]
    by_cases h : le x y
    · simp [h]
    · simp only [h, Bool.false_eq_true, if_false]
      exact (ih.cons y).trans (List.Perm.swap x y ys)

theorem insertionSort_perm (le : α → α → Bool) (l : List α) :
    (insertionSort le l).Perm l := by
  induction l with
  | nil => exact List.Perm.refl _
  | cons x xs ih => exact (insertSorted_perm le x _).trans (ih.cons x)

theorem mem_insertionSort {le : α → α → Bool} {a : α} {l : List α} :
    a ∈ insertionSort le l ↔ a ∈ l :=
  (insertionSort_perm le l).mem_iff

/-- Inserting an element whose pool index is below every index in an
already lexicographically sorted list keeps the list sorted by
(score, pool index): the insertion point is before the first tie, so the
smaller index lands first. -/
theorem insertSorted_pairwise_key {key : α → ℚ} {idx : α → ℕ} {x : α} {s : List α}
    (hs : s.Pairwise (fun a b => key a < key b ∨ (key a = key b ∧ idx a < idx b)))
    (hx : ∀ y ∈ s, idx x < idx y) :
    (insertSorted (fun a b => decide (key a ≤ key b)) x s).Pairwise
      (fun a b => key a < key b ∨ (key a = key b ∧ idx a < idx b)) := by
  induction s with
  | nil => simp [insertSorted]
  | cons y ys ih =>
    rw [List.pairwise_cons] at hs
    obtain ⟨hy, hys⟩ := hs
    rw [insertSorted]
    by_cases h : key x ≤ key y
    · simp only [decide_eq_true_eq, h, if_true]
      refine List.Pairwise.cons ?_ (List.Pairwise.cons hy hys)
      intro z hz
      rcases List.mem_cons.1 hz with rfl | hz'
      · rcases lt_or_eq_of_le h with hlt | heq
        · exact Or.inl hlt
        · exact Or.inr ⟨heq, hx z (List.mem_cons_self _ _)⟩
      · have hyz : key y ≤ key z := by
          rcases hy z hz' with h1 | ⟨h1, _⟩
          · exact le_of_lt h1
          · exact le_of_eq h1
        rcases lt_or_eq_of_le (le_trans h hyz) with hlt | heq
        · exact Or.inl hlt
        · exact Or.inr ⟨heq, hx z (List.mem_cons_of_mem _ hz')⟩
    · simp only [decide_eq_true_eq, h, if_false]
      refine List.Pairwise.cons ?_ (ih hys (fun z hz => hx z (List.mem_cons_of_mem _ hz)))
      intro w hw
      rcases mem_insertSorted.1 hw with rfl | hw'
      · exact Or.inl (lt_of_not_le h)
      · exact hy w hw'

/-- Sorting a list whose pool indices strictly increase by score alone
(the stable ascending argsort) yields a list sorted lexicographically by
(score, pool index): ties stay in pool order. -/
theorem insertionSort_pairwise_key {key : α → ℚ} {idx : α → ℕ} {l : List α}
    (hl : l.Pairwise (fun a b => idx a < idx b)) :
    (insertionSort (fun a b => decide (key a ≤ key b)) l).Pairwise
      (fun a b => key a < key b ∨ (key a = key b ∧ idx a < idx b)) := by
  induction l with
  | nil => simp [insertionSort]
  | cons x xs ih =>
    rw [List.pairwise_cons] at hl
    obtain ⟨hx, hxs⟩ := hl
    rw [insertionSort]
    exact insertSorted_pairwise_key (ih hxs)
      (fun y hy => hx y (mem_insertionSort.1 hy))

open EmbeddingService CoPurchasePatternMiner EventDetector

/-! ## EmbeddingService: claims about `find_similar_services` and
`generate_embedding` -/

/-- Helper, a fact about the MODEL's fixed deterministic tie order (not a
guarantee of the program, whose default argsort kind is unstable): the
modelled ranking is pairwise ordered by strictly descending score with
model ties in descending pool index. Claim theorems use only its
tie-insensitive consequence, sortedness by score. -/
theorem rankedCandidates_pairwise (sim : List ℚ → List ℚ → ℚ) (q : List ℚ)
    (cands : List ServiceEmbedding) (k : ℕ) :
    (rankedCandidates sim q cands k).Pairwise
      (fun a b => b.2.2 < a.2.2 ∨ (b.2.2 = a.2.2 ∧ b.1 < a.1)) := by
  have h0 : (List.map Prod.fst cands.enum).Pairwise (· < ·) := by
    rw [List.enum_map_fst]; exact List.pairwise_lt_range _
  have h1 : cands.enum.Pairwise (fun a b => a.1 < b.1) := List.pairwise_map.mp h0
  have h2 : (cands.enum.map (fun p => (p.1, p.2, sim q p.2.embedding))).Pairwise
      (fun a b => a.1 < b.1) := by
    rw [List.pairwise_map]; exact h1
  have h3 := @insertionSort_pairwise_key (ℕ × ServiceEmbedding × ℚ)
    (fun t => t.2.2) (fun t => t.1) _ h2
  have h4 := List.pairwise_reverse.mpr h3
  simp only [rankedCandidates]
  exact List.Pairwise.sublist (List.take_sublist _ _) h4

/-- C3 (amended): the list returned by `find_similar_services` is sorted by
non-increasing similarity score, for every scoring function, pool,
exclusion list and `top_k`. The claimed stable tie-break by pool order does
not hold (see the counterexample); and because the source's `np.argsort`
uses the default unstable introsort, the program guarantees no tie order at
all on large pools, so sortedness — which any correct argsort yields
regardless of tie order — is all that remains of the claim. -/
theorem find_similar_services_sorted_desc (sim : List ℚ → List ℚ → ℚ) (q : List ℚ)
    (pool : List ServiceEmbedding) (k : ℕ) (E : List String) :
    ((find_similar_services sim q pool k E).map Prod.snd).Pairwise (fun a b => b ≤ a) := by
  rw [find_similar_services]
  split
  · simp
  · rw [List.map_map, List.pairwise_map]
    refine (rankedCandidates_pairwise sim q _ k).imp ?_
    intro a b hab
    rcases hab with h | ⟨h, _⟩
    · exact le_of_lt h
    · exact le_of_eq h

/-- C3 (counterexample): two candidates with the same embedding as the
query tie on any score row, and the code returns them in reverse pool
order, not in pool order as claimed. On a two-element pool numpy's
introsort is its insertion-sort pass, which the model matches exactly, so
this evaluation reflects the program's actual behavior at this input. -/
theorem find_similar_services_tie_order :
    (find_similar_services (fun _ _ => (1 : ℚ)) [3, 4]
        [⟨"s0", "", "v0", [3, 4]⟩, ⟨"s1", "", "v1", [3, 4]⟩] 10 []
      = [(⟨"s1", "", "v1", [3, 4]⟩, 1), (⟨"s0", "", "v0", [3, 4]⟩, 1)])
    ∧ (([(⟨"s1", "", "v1", [3, 4]⟩, (1 : ℚ)), (⟨"s0", "", "v0", [3, 4]⟩, 1)] :
          List (ServiceEmbedding × ℚ))
        ≠ [(⟨"s0", "", "v0", [3, 4]⟩, (1 : ℚ)), (⟨"s1", "", "v1", [3, 4]⟩, 1)]) := by
  constructor
  · norm_num [find_similar_services, filteredCandidates, rankedCandidates,
      insertionSort, insertSorted, List.enum, List.enumFrom]
  · simp

/-- C7: no candidate whose identifier is excluded is ever returned, and an
exclusion list covering the whole pool yields the empty list, not an
error. -/
theorem find_similar_services_excludes (sim : List ℚ → List ℚ → ℚ) (q : List ℚ)
    (pool : List ServiceEmbedding) (k : ℕ) (E : List String) :
    ((find_similar_services sim q pool k E).Forall (fun p => p.1.service_id ∉ E))
    ∧ (filteredCandidates pool E = [] → find_similar_services sim q pool k E = []) := by
  constructor
  · rw [List.forall_iff_forall_mem]
    intro p hp
    rw [find_similar_services] at hp
    split at hp
    · simp at hp
    · obtain ⟨r, hr, rfl⟩ := List.mem_map.1 hp
      simp only [rankedCandidates] at hr
      have hr2 : r ∈ (insertionSort (fun a b => decide (a.2.2 ≤ b.2.2))
          ((filteredCandidates pool E).enum.map
            (fun p => (p.1, p.2, sim q p.2.embedding)))).reverse :=
        List.take_subset _ _ hr
      rw [List.mem_reverse] at hr2
      have hr3 := mem_insertionSort.1 hr2
      obtain ⟨⟨i, e⟩, hie, rfl⟩ := List.mem_map.1 hr3
      have he : e ∈ filteredCandidates pool E := by
        obtain ⟨hlt, hEq⟩ := List.mem_enum hie
        rw [hEq]
        exact List.getElem_mem hlt
      have hdec := (List.mem_filter.1 he).2
      simpa using hdec
  · intro hE
    simp [find_similar_services, hE]

/-- C8: `generate_embedding` is deterministic across repeated calls in one
process (its output does not depend on the ambient random-generator state,
because the fallback reseeds from the text's hash before drawing), and the
output dimension is the constant of the strategy in effect (the model's
dimension, or 384 for the fallback). -/
theorem generate_embedding_deterministic (model : Option SentenceTransformerModel)
    (pyhash : String → ℤ) (text : String) (st st2 : RandomState) :
    (generate_embedding model pyhash text st).1 = (generate_embedding model pyhash text st2).1
    ∧ (generate_embedding model pyhash text st).1.length = embeddingDim model := by
  cases model with
  | some m => exact ⟨rfl, m.encode_dim text⟩
  | none =>
    refine ⟨rfl, ?_⟩
    simp [generate_embedding, fallback_embedding, np_randn, embeddingDim]

/-! ## CoPurchasePatternMiner: claims about `mine_patterns` -/

/-- C1: every rule emitted by `mine_patterns` satisfies the configured
thresholds — support at least `min_support` (the rule's support is the
support of its generating frequent itemset), confidence at least
`min_confidence` (the miner's own filter), lift at least `min_lift` (the
library call's threshold) — and its antecedent and consequent category
sets are disjoint. -/
theorem mine_patterns_thresholds (h : Bool) (ms mc ml : ℚ) (et : Option String)
    (ts : List Transaction) :
    (mine_patterns h ms mc ml et ts).Forall (fun r =>
      ms ≤ r.support ∧ mc ≤ r.confidence ∧ ml ≤ r.lift ∧
      r.antecedent_categories ∩ r.consequent_categories = []) := by
  rw [List.forall_iff_forall_mem]
  intro r hr
  simp only [mine_patterns] at hr
  split at hr
  · simp at hr
  · split at hr
    · simp at hr
    · split at hr
      · simp at hr
      · obtain ⟨r', hr', rfl⟩ := List.mem_map.1 hr
        obtain ⟨hmem, hconf⟩ := List.mem_filter.1 hr'
        rw [decide_eq_true_eq] at hconf
        rw [association_rules, List.mem_flatMap] at hmem
        obtain ⟨I, hI, hrI⟩ := hmem
        rw [apriori, List.mem_filter, decide_eq_true_eq] at hI
        simp only [rulesFromItemset] at hrI
        obtain ⟨A, hA, hsome⟩ := List.mem_filterMap.1 hrI
        rw [Option.ite_none_right_eq_some, Option.some.injEq] at hsome
        obtain ⟨hlift, hEqr⟩ := hsome
        subst hEqr
        refine ⟨hI.2.2, hconf, hlift, ?_⟩
        rw [List.inter_eq_nil_iff_disjoint]
        intro x hxA hxC
        have hx := (List.mem_filter.1 hxC).2
        rw [decide_eq_true_eq] at hx
        exact hx hxA

/-- C6: below 10 fetched transactions, mining is skipped and the empty
rule list is returned (for either value of the library-availability
flag). -/
theorem mine_patterns_skips_below_ten (h : Bool) (ms mc ml : ℚ) (et : Option String)
    (ts : List Transaction) (hlen : ts.length < 10) :
    mine_patterns h ms mc ml et ts = [] := by
  cases h <;> simp [mine_patterns, hlen]

/-- Witness for C6 at a concrete input: the empty transaction list. -/
theorem mine_patterns_skips_below_ten_witness :
    mine_patterns true (1/100) (1/10) 1 none [] = [] :=
  mine_patterns_skips_below_ten true (1/100) (1/10) 1 none [] (by decide)

/-- C10: with `mlxtend` absent at import time, `mine_patterns` returns the
empty rule list for every input, and its result does not depend on the
transaction source at all (the early return precedes the fetch). -/
theorem mine_patterns_without_mlxtend (ms mc ml : ℚ) (et : Option String)
    (ts ts2 : List Transaction) :
    mine_patterns false ms mc ml et ts = []
    ∧ mine_patterns false ms mc ml et ts = mine_patterns false ms mc ml et ts2 := by
  constructor <;> simp [mine_patterns]

/-- C2 (code bug): on 10 transactions all equal to {catering, venue} and
the default thresholds, mining emits the rule catering → venue with
confidence exactly 1, and the emitted conviction is positive infinity, not
the claimed 0: the library's conviction column is `inf` at confidence 1,
`pd.notna(inf)` holds, so the `else 0.0` guard never fires. -/
theorem mine_patterns_infinite_conviction :
    ∃ r ∈ mine_patterns true (1/100) (1/10) 1 none
        (List.replicate 10 ["catering", "venue"]),
      r.confidence = 1 ∧ r.conviction = PyFloat.inf := by
  have hts : (List.replicate 10 (["catering", "venue"] : List String)).length = 10 := by
    decide
  have hu : itemUniverse (List.replicate 10 ["catering", "venue"])
      = ["catering", "venue"] := by decide
  have hsubl : (["catering", "venue"] : List String).sublists
      = [[], ["catering"], ["venue"], ["catering", "venue"]] := by decide
  have hc1 : supportCount (List.replicate 10 ["catering", "venue"]) ["catering"] = 10 := by
    decide
  have hc2 : supportCount (List.replicate 10 ["catering", "venue"]) ["venue"] = 10 := by
    decide
  have hc3 : supportCount (List.replicate 10 ["catering", "venue"]) ["catering", "venue"]
      = 10 := by decide
  have hs1 : support (List.replicate 10 ["catering", "venue"]) ["catering"] = 1 := by
    rw [support, hc1, hts]; norm_num
  have hs2 : support (List.replicate 10 ["catering", "venue"]) ["venue"] = 1 := by
    rw [support, hc2, hts]; norm_num
  have hs3 : support (List.replicate 10 ["catering", "venue"]) ["catering", "venue"] = 1 := by
    rw [support, hc3, hts]; norm_num
  have hap : apriori (List.replicate 10 ["catering", "venue"]) (1/100)
      = [["catering"], ["venue"], ["catering", "venue"]] := by
    rw [apriori, hu, hsubl]
    simp only [List.filter_cons, List.filter_nil, hs1, hs2, hs3, decide_eq_true_eq]
    norm_num
    all_goals decide
  have hr1 : rulesFromItemset (List.replicate 10 ["catering", "venue"]) 1 ["catering"]
      = [] := by decide
  have hr2 : rulesFromItemset (List.replicate 10 ["catering", "venue"]) 1 ["venue"]
      = [] := by decide
  have hfil : (["catering", "venue"] : List String).sublists.filter
      (fun A => decide (A ≠ [] ∧ A ≠ ["catering", "venue"]))
      = [["catering"], ["venue"]] := by decide
  have hCA : (["catering", "venue"] : List String).filter
      (fun x => decide (x ∉ (["catering"] : List String))) = ["venue"] := by decide
  have hCB : (["catering", "venue"] : List String).filter
      (fun x => decide (x ∉ (["venue"] : List String))) = ["catering"] := by decide
  have hr3 : rulesFromItemset (List.replicate 10 ["catering", "venue"]) 1
      ["catering", "venue"]
      = [⟨["catering"], ["venue"], 1, 1, 1, PyFloat.inf⟩,
         ⟨["venue"], ["catering"], 1, 1, 1, PyFloat.inf⟩] := by
    rw [rulesFromItemset, hfil]
    simp only [List.filterMap_cons, List.filterMap_nil, hCA, hCB, hs1, hs2, hs3,
      conviction_helper]
    norm_num
  have har : association_rules (List.replicate 10 ["catering", "venue"])
      [["catering"], ["venue"], ["catering", "venue"]] 1
      = [⟨["catering"], ["venue"], 1, 1, 1, PyFloat.inf⟩,
         ⟨["venue"], ["catering"], 1, 1, 1, PyFloat.inf⟩] := by
    rw [association_rules]
    simp only [List.flatMap_cons, List.flatMap_nil, hr1, hr2, hr3,
      List.nil_append, List.append_nil]
  have hmine : mine_patterns true (1/100) (1/10) 1 none
      (List.replicate 10 ["catering", "venue"])
      = [⟨["catering"], ["venue"], 1, 1, 1, PyFloat.inf, none⟩,
         ⟨["venue"], ["catering"], 1, 1, 1, PyFloat.inf, none⟩] := by
    rw [mine_patterns]
    simp only [Bool.not_true, Bool.false_eq_true, if_false, hts, hap, har, pd_notna]
    norm_num [List.filter_cons, List.filter_nil, pd_notna]
  refine ⟨⟨["catering"], ["venue"], 1, 1, 1, PyFloat.inf, none⟩, ?_, rfl, rfl⟩
  rw [hmine]
  exact List.mem_cons_self _ _

/-! ## EventDetector: claims about `detect_events` -/

/-- Helper: membership in the detector's output, through the final sort
(a permutation) and the per-archetype emission test. -/
theorem mem_detect_events_iff {s v b : List String} {e : DetectedEvent} :
    e ∈ detect_events s v b ↔
      ∃ np ∈ EVENT_PATTERNS,
        (if (0.3 : ℚ) ≤ (scoreArchetype s v b np.2).1 then
          some (⟨np.1, min (scoreArchetype s v b np.2).1 1,
            (scoreArchetype s v b np.2).2⟩ : DetectedEvent) else none) = some e := by
  simp only [detect_events]
  rw [mem_insertionSort, List.mem_filterMap]

/-- Helper: an archetype whose summed confidence reaches the 0.3 threshold
has at least one trigger signal, because every confidence contribution
appends its signal and a sum with no contributions is 0. -/
theorem scoreArchetype_signals_of_threshold {s v b : List String} {p : EventPattern}
    (h : (0.3 : ℚ) ≤ (scoreArchetype s v b p).1) :
    0 < (scoreArchetype s v b p).2.length := by
  simp only [scoreArchetype] at h ⊢
  split_ifs at h ⊢ <;> simp_all <;> norm_num at h

/-- Helper: a filterMap that guards a mapped value is a sublist of the
map. -/
theorem filterMap_ite_sublist (c : α → Prop) [DecidablePred c] (g : α → β) (l : List α) :
    (l.filterMap (fun a => if c a then some (g a) else none)).Sublist (l.map g) := by
  induction l with
  | nil => simp
  | cons a l ih =>
    rw [List.filterMap_cons, List.map_cons]
    by_cases h : c a
    · rw [if_pos h]
      exact ih.cons₂ (g a)
    · rw [if_neg h]
      exact ih.cons (g a)

/-- Helper: an event of type `name` is emitted exactly when the catalog
entry with that name reaches the 0.3 threshold, provided `name` occurs
once in the catalog. -/
theorem emitted_iff_of_catalog (s v b : List String) (name : String) (p : EventPattern)
    (hmem : (name, p) ∈ EVENT_PATTERNS)
    (huniq : ∀ np ∈ EVENT_PATTERNS, np.1 = name → np = (name, p)) :
    (∃ e ∈ detect_events s v b, e.event_type = name)
      ↔ (0.3 : ℚ) ≤ (scoreArchetype s v b p).1 := by
  constructor
  · rintro ⟨e, he, hty⟩
    rw [mem_detect_events_iff] at he
    obtain ⟨np, hnp, hsome⟩ := he
    rw [Option.ite_none_right_eq_some, Option.some.injEq] at hsome
    obtain ⟨hth, hEq⟩ := hsome
    subst hEq
    have heq := huniq np hnp hty
    rw [heq] at hth
    exact hth
  · intro hth
    refine ⟨⟨name, min (scoreArchetype s v b p).1 1, (scoreArchetype s v b p).2⟩, ?_, rfl⟩
    rw [mem_detect_events_iff]
    exact ⟨(name, p), hmem, by rw [if_pos hth]⟩

/-- C4: every emitted event's confidence lies in [0,1] (it is at least the
0.3 threshold and clamped by `min(confidence, 1.0)`), and each of the four
archetypes is emitted exactly when its summed pre-clamp confidence reaches
0.3 — no sub-threshold event is ever returned. -/
theorem detect_events_threshold_iff (s v b : List String) :
    ((detect_events s v b).Forall (fun e => 0 ≤ e.confidence ∧ e.confidence ≤ 1))
    ∧ (((∃ e ∈ detect_events s v b, e.event_type = "wedding")
          ↔ (0.3 : ℚ) ≤ (scoreArchetype s v b weddingPattern).1)
      ∧ ((∃ e ∈ detect_events s v b, e.event_type = "relocation")
          ↔ (0.3 : ℚ) ≤ (scoreArchetype s v b relocationPattern).1)
      ∧ ((∃ e ∈ detect_events s v b, e.event_type = "childbirth")
          ↔ (0.3 : ℚ) ≤ (scoreArchetype s v b childbirthPattern).1)
      ∧ ((∃ e ∈ detect_events s v b, e.event_type = "business_launch")
          ↔ (0.3 : ℚ) ≤ (scoreArchetype s v b businessLaunchPattern).1)) := by
  constructor
  · rw [List.forall_iff_forall_mem]
    intro e he
    rw [mem_detect_events_iff] at he
    obtain ⟨np, _, hsome⟩ := he
    rw [Option.ite_none_right_eq_some, Option.some.injEq] at hsome
    obtain ⟨hth, hEq⟩ := hsome
    subst hEq
    exact ⟨le_min (le_trans (by norm_num) hth) (by norm_num), min_le_right _ _⟩
  · refine ⟨?_, ?_, ?_, ?_⟩
    · refine emitted_iff_of_catalog s v b "wedding" weddingPattern
        (by simp only [EVENT_PATTERNS]; exact List.mem_cons_self _ _) ?_
      intro np hnp h
      simp only [EVENT_PATTERNS, List.mem_cons, List.not_mem_nil, or_false] at hnp
      rcases hnp with rfl | rfl | rfl | rfl
      · rfl
      · exact absurd h (by decide)
      · exact absurd h (by decide)
      · exact absurd h (by decide)
    · refine emitted_iff_of_catalog s v b "relocation" relocationPattern
        (by simp only [EVENT_PATTERNS]
            exact List.mem_cons_of_mem _ (List.mem_cons_self _ _)) ?_
      intro np hnp h
      simp only [EVENT_PATTERNS, List.mem_cons, List.not_mem_nil, or_false] at hnp
      rcases hnp with rfl | rfl | rfl | rfl
      · exact absurd h (by decide)
      · rfl
      · exact absurd h (by decide)
      · exact absurd h (by decide)
    · refine emitted_iff_of_catalog s v b "childbirth" childbirthPattern
        (by simp only [EVENT_PATTERNS]
            exact List.mem_cons_of_mem _ (List.mem_cons_of_mem _ (List.mem_cons_self _ _))) ?_
      intro np hnp h
      simp only [EVENT_PATTERNS, List.mem_cons, List.not_mem_nil, or_false] at hnp
      rcases hnp with rfl | rfl | rfl | rfl
      · exact absurd h (by decide)
      · exact absurd h (by decide)
      · rfl
      · exact absurd h (by decide)
    · refine emitted_iff_of_catalog s v b "business_launch" businessLaunchPattern
        (by simp only [EVENT_PATTERNS]
            exact List.mem_cons_of_mem _ (List.mem_cons_of_mem _
              (List.mem_cons_of_mem _ (List.mem_cons_self _ _)))) ?_
      intro np hnp h
      simp only [EVENT_PATTERNS, List.mem_cons, List.not_mem_nil, or_false] at hnp
      rcases hnp with rfl | rfl | rfl | rfl
      · exact absurd h (by decide)
      · exact absurd h (by decide)
      · exact absurd h (by decide)
      · rfl

/-- C9: each archetype of the fixed catalog yields at most one event (the
event types of the output are pairwise distinct, so the output has at most
4 elements), and every emitted event carries at least one trigger
signal. -/
theorem detect_events_unique_types (s v b : List String) :
    (((detect_events s v b).map (fun e => e.event_type)).Nodup)
    ∧ ((detect_events s v b).length ≤ 4)
    ∧ ((detect_events s v b).Forall (fun e => 0 < e.trigger_signals.length)) := by
  have hperm : (detect_events s v b).Perm (EVENT_PATTERNS.filterMap (fun np =>
      if (0.3 : ℚ) ≤ (scoreArchetype s v b np.2).1 then
        some (⟨np.1, min (scoreArchetype s v b np.2).1 1,
          (scoreArchetype s v b np.2).2⟩ : DetectedEvent) else none)) := by
    simp only [detect_events]
    exact insertionSort_perm _ _
  refine ⟨?_, ?_, ?_⟩
  · have h1 := hperm.map (fun e => e.event_type)
    rw [List.map_filterMap] at h1
    have h2 : ∀ np : String × EventPattern,
        Option.map (fun e : DetectedEvent => e.event_type)
          (if (0.3 : ℚ) ≤ (scoreArchetype s v b np.2).1 then
            some (⟨np.1, min (scoreArchetype s v b np.2).1 1,
              (scoreArchetype s v b np.2).2⟩ : DetectedEvent) else none)
        = if (0.3 : ℚ) ≤ (scoreArchetype s v b np.2).1 then some np.1 else none := by
      intro np
      by_cases hth : (0.3 : ℚ) ≤ (scoreArchetype s v b np.2).1
      · rw [if_pos hth, if_pos hth]
        rfl
      · rw [if_neg hth, if_neg hth]
        rfl
    simp only [h2] at h1
    have h3 := filterMap_ite_sublist
      (fun np : String × EventPattern => (0.3 : ℚ) ≤ (scoreArchetype s v b np.2).1)
      (fun np => np.1) EVENT_PATTERNS
    have h4 : (EVENT_PATTERNS.map (fun np => np.1)).Nodup := by decide
    exact h1.nodup_iff.mpr (h3.nodup h4)
  · rw [hperm.length_eq]
    exact le_trans (List.length_filterMap_le _ _) (by decide)
  · rw [List.forall_iff_forall_mem]
    intro e he
    rw [mem_detect_events_iff] at he
    obtain ⟨np, hnp, hsome⟩ := he
    rw [Option.ite_none_right_eq_some, Option.some.injEq] at hsome
    obtain ⟨hth, hEq⟩ := hsome
    subst hEq
    exact scoreArchetype_signals_of_threshold hth

/-- Helper: full evaluation of the detector on scenario A of the spec
(3 searches collectively containing "wedding" and "bridal", viewed
categories {venue, catering}, no bookings). Both keywords match, so the
keyword contribution is min(2 × 0.1, 0.3) = 0.2, the two viewed categories
contribute 2 × 0.15 = 0.3, and the single emitted event is the wedding one
with confidence 0.5. -/
theorem detect_events_scenario_A_eval :
    detect_events ["wedding venue", "bridal makeup", "cake"] ["venue", "catering"] []
      = [⟨"wedding", 1/2, ["keyword_matches:2", "category_views:2"]⟩] := by
  have hstr1 : ("keyword_matches:" ++ toString (2 : ℕ)) = "keyword_matches:2" := by decide
  have hstr2 : ("category_views:" ++ toString (2 : ℕ)) = "category_views:2" := by decide
  have hstr3 : ("category_views:" ++ toString (1 : ℕ)) = "category_views:1" := by decide
  have hkw : keywordMatchCount ["wedding venue", "bridal makeup", "cake"] weddingPattern
      = 2 := by decide
  have hvw : categoryViewCount ["venue", "catering"] weddingPattern = 2 := by decide
  have hbw : categoryBookingCount [] weddingPattern = 0 := by decide
  have hsw : scoreArchetype ["wedding venue", "bridal makeup", "cake"]
      ["venue", "catering"] [] weddingPattern
      = (1/2, ["keyword_matches:2", "category_views:2"]) := by
    simp only [scoreArchetype]
    rw [hkw, hvw, hbw]
    norm_num [weddingPattern, hstr1, hstr2]
  have hkr : keywordMatchCount ["wedding venue", "bridal makeup", "cake"] relocationPattern
      = 0 := by decide
  have hvr : categoryViewCount ["venue", "catering"] relocationPattern = 0 := by decide
  have hbr : categoryBookingCount [] relocationPattern = 0 := by decide
  have hsr : scoreArchetype ["wedding venue", "bridal makeup", "cake"]
      ["venue", "catering"] [] relocationPattern = (0, []) := by
    simp only [scoreArchetype]
    rw [hkr, hvr, hbr]
    norm_num [relocationPattern]
  have hkc : keywordMatchCount ["wedding venue", "bridal makeup", "cake"] childbirthPattern
      = 0 := by decide
  have hvc : categoryViewCount ["venue", "catering"] childbirthPattern = 1 := by decide
  have hbc : categoryBookingCount [] childbirthPattern = 0 := by decide
  have hsc : scoreArchetype ["wedding venue", "bridal makeup", "cake"]
      ["venue", "catering"] [] childbirthPattern = (1/5, ["category_views:1"]) := by
    simp only [scoreArchetype]
    rw [hkc, hvc, hbc]
    norm_num [childbirthPattern, hstr3]
  have hkb : keywordMatchCount ["wedding venue", "bridal makeup", "cake"]
      businessLaunchPattern = 0 := by decide
  have hvb : categoryViewCount ["venue", "catering"] businessLaunchPattern = 0 := by decide
  have hbb : categoryBookingCount [] businessLaunchPattern = 0 := by decide
  have hsb : scoreArchetype ["wedding venue", "bridal makeup", "cake"]
      ["venue", "catering"] [] businessLaunchPattern = (0, []) := by
    simp only [scoreArchetype]
    rw [hkb, hvb, hbb]
    norm_num [businessLaunchPattern]
  simp only [detect_events, EVENT_PATTERNS, List.filterMap_cons, List.filterMap_nil,
    hsw, hsr, hsc, hsb]
  norm_num [insertionSort, insertSorted]

/-- C5 (counterexample): on scenario A's inputs the detector emits the
wedding event with confidence 0.5, not 0.4 — both matched keywords
contribute (2 × 0.1 = 0.2), not 0.1 as the claim assumes. -/
theorem detect_events_scenario_A :
    (detect_events ["wedding venue", "bridal makeup", "cake"] ["venue", "catering"] []
      = [⟨"wedding", 1/2, ["keyword_matches:2", "category_views:2"]⟩])
    ∧ ¬ ((1 : ℚ)/2 = 2/5) :=
  ⟨detect_events_scenario_A_eval, by norm_num⟩

/-- C5 (amended): on scenario A's inputs a wedding event is emitted whose
confidence is 2 × 0.1 (two matched keywords) + 2 × 0.15 (two category
views) = 0.5, and whose trigger signals contain both a keyword_matches and
a category_views entry. -/
theorem detect_events_scenario_A_amended :
    ∃ e ∈ detect_events ["wedding venue", "bridal makeup", "cake"] ["venue", "catering"] [],
      e.event_type = "wedding" ∧ e.confidence = 2 * (1/10) + 2 * (15/100)
      ∧ "keyword_matches:2" ∈ e.trigger_signals
      ∧ "category_views:2" ∈ e.trigger_signals := by
  refine ⟨⟨"wedding", 1/2, ["keyword_matches:2", "category_views:2"]⟩, ?_, rfl, by norm_num,
    by simp, by simp⟩
  rw [detect_events_scenario_A_eval]
  exact List.mem_cons_self _ _
